import Mathlib

/-!
Shallow embedding of the conversation-log normalization and trajectory
construction pipeline of `bench/forge_agent.py` (class `ForgeAgent`).

Modelling conventions:
* JSON values (the already-parsed Python data) are modelled by `JVal`;
  JSON numbers are modelled as integers (the usage payloads the pipeline
  reads are token counts).  Python `None` and JSON `null` are the same
  object in Python, so both are `JVal.null`.
* Python `dict`s are association lists with unique keys maintained by
  construction; `d.get(k)` is `getJ` (missing -> null, i.e. Python None),
  `d.get(k, default)` is `getJD`.
* A Python exception that the pipeline does not catch (TypeError on
  `None + int`, unhashable dict keys, pydantic validation of a non-string
  where a string is required, ...) is modelled as `Except.error ()`.
  `ValueError` raised by `_convert_event_to_step` is the only caught
  exception and is modelled separately (`StepErr.valueError`).
* `uuid.uuid4()` results are modelled by a counter threaded through the
  conversion (fresh strings `"call_u<n>"` / `"uuid_<n>"`); the model, like
  the code, relies on fresh ids not colliding with ids present in the log.
* The `harbor.models.trajectories` classes (`Step`, `Metrics`, `Trajectory`,
  ...) are external to the repository; per the design document they are
  plain record shapes and are modelled as permissive structures.
-/

inductive JVal where
  | null
  | bool (b : Bool)
  | num (n : Int)
  | str (s : String)
  | arr (xs : List JVal)
  | obj (kvs : List (String × JVal))

/-- Python truthiness of a JSON value. -/
def truthy : JVal → Bool
  | .null => false
  | .bool b => b
  | .num n => n != 0
  | .str s => !s.data.isEmpty
  | .arr xs => !xs.isEmpty
  | .obj kvs => !kvs.isEmpty

/-- `d.get(k)` on a dict with string keys: missing key gives Python `None`. -/
def getJ (kvs : List (String × JVal)) (k : String) : JVal :=
  (List.lookup k kvs).getD JVal.null

/-- `d.get(k, default)`: the default is used only when the key is missing. -/
def getJD (kvs : List (String × JVal)) (k : String) (d : JVal) : JVal :=
  (List.lookup k kvs).getD d

/-- `v == "lit"` in Python: only a string compares equal to a string. -/
def isStrV : JVal → String → Bool
  | .str s, t => s == t
  | _, _ => false

/-- `isinstance(v, dict) and k in v`. -/
def isObjWithKey : JVal → String → Bool
  | .obj kvs, k => (List.lookup k kvs).isSome
  | _, _ => false

/-- Equality of the hashable values used as pending-call keys
(strings, numbers, booleans; lists/dicts are rejected before reaching a
dict key position). -/
def keyEq : JVal → JVal → Bool
  | .str a, .str b => a == b
  | .num a, .num b => a == b
  | .bool a, .bool b => a == b
  | .null, .null => true
  | _, _ => false

/-- Python `str.strip()` (whitespace at both ends). -/
def pyStrip (s : String) : String :=
  String.mk (((s.data.dropWhile Char.isWhitespace).reverse.dropWhile
    Char.isWhitespace).reverse)

/-- Python `sep.join(parts)`. -/
def joinSep (sep : String) : List String → String
  | [] => ""
  | [x] => x
  | x :: xs => x ++ sep ++ joinSep sep xs

/-- Iterating a Python value with `for x in v`: lists yield elements,
strings yield one-character strings, dicts yield their keys; anything
else raises TypeError. -/
def pyIter : JVal → Except Unit (List JVal)
  | .arr xs => .ok xs
  | .str s => .ok (s.data.map (fun c => JVal.str (String.mk [c])))
  | .obj kvs => .ok (kvs.map (fun p => JVal.str p.1))
  | _ => .error ()

def hexDigit (n : Nat) : Char :=
  if n < 10 then Char.ofNat (48 + n) else Char.ofNat (87 + n)

/-- One character of a JSON string literal as `json.dumps` renders it
(`ensure_ascii=False`). -/
def escapeJsonChar (c : Char) : String :=
  if c = '"' then "\\\""
  else if c = '\\' then "\\\\"
  else if c = '\n' then "\\n"
  else if c = '\t' then "\\t"
  else if c = '\r' then "\\r"
  else if c.toNat = 8 then "\\b"
  else if c.toNat = 12 then "\\f"
  else if c.toNat < 32 then
    "\\u00" ++ String.mk [hexDigit (c.toNat / 16), hexDigit (c.toNat % 16)]
  else String.mk [c]

/-- `json.dumps(v, ensure_ascii=False)` with the default separators. -/
def jdump : JVal → String
  | .null => "null"
  | .bool true => "true"
  | .bool false => "false"
  | .num n => toString n
  | .str s => "\"" ++ String.join (s.data.map escapeJsonChar) ++ "\""
  | .arr xs => "[" ++ joinSep ", " (xs.attach.map (fun x => jdump x.1)) ++ "]"
  | .obj kvs =>
      "\x7b" ++
        joinSep ", " (kvs.attach.map (fun p =>
          "\"" ++ String.join (p.1.1.data.map escapeJsonChar) ++ "\": " ++ jdump p.1.2)) ++
      "\x7d"
decreasing_by
  · have h := List.sizeOf_lt_of_mem x.2
    simp only [JVal.arr.sizeOf_spec]
    omega
  · have h := List.sizeOf_lt_of_mem p.2
    have h2 : sizeOf p.1.2 < sizeOf p.1 := by
      obtain ⟨⟨a, b⟩, hp⟩ := p
      simp only [Prod.mk.sizeOf_spec]
      omega
    simp only [JVal.obj.sizeOf_spec]
    omega

/-- `ForgeAgent._stringify`: a string is returned as is, everything else is
JSON-serialized.  Every `JVal` is JSON-serializable, so the `str(value)`
fallback of the source (for unserializable objects) is unreachable here. -/
def stringify (v : JVal) : String :=
  match v with
  | .str s => s
  | v => jdump v

/-- The block loop of `_extract_text_reasoning_tool_uses` (lines 264-291):
accumulated text fragments, reasoning fragments and collected `tool_use`
blocks, in input order. -/
def extractBlocks : List JVal → List String × List String × List (List (String × JVal))
  | [] => ([], [], [])
  | block :: rest =>
      let acc := extractBlocks rest
      match block with
      | .obj kvs =>
          let btype := getJ kvs "type"
          if isStrV btype "tool_use" then
            (acc.1, acc.2.1, kvs :: acc.2.2)
          else if isStrV btype "thinking" || isStrV btype "reasoning" ||
              isStrV btype "analysis" then
            match getJ kvs "text" with
            | .str s => (acc.1, pyStrip s :: acc.2.1, acc.2.2)
            | v => (acc.1, stringify v :: acc.2.1, acc.2.2)
          else if isStrV btype "code" &&
              (match getJ kvs "code" with | .str _ => true | _ => false) then
            (match getJ kvs "code" with
             | .str c => (c :: acc.1, acc.2.1, acc.2.2)
             | _ => acc)
          else
            match getJ kvs "text" with
            | .str s => (s :: acc.1, acc.2.1, acc.2.2)
            | _ => (stringify (JVal.obj kvs) :: acc.1, acc.2.1, acc.2.2)
      | b => (stringify b :: acc.1, acc.2.1, acc.2.2)

/-- `"\n\n".join(part.strip() for part in parts if part and str(part).strip())`. -/
def joinParts (parts : List String) : String :=
  joinSep "\n\n"
    ((parts.filter (fun p => !p.data.isEmpty && !(pyStrip p).data.isEmpty)).map pyStrip)

/-- `ForgeAgent._extract_text_reasoning_tool_uses`: decompose a message
`content` value into (text, reasoning-or-None, tool_use blocks).  An empty
reasoning accumulator yields `none` (the source's `reasoning or None`). -/
def extractTRT (content : JVal) : String × Option String × List (List (String × JVal)) :=
  match content with
  | .str s => (pyStrip s, none, [])
  | .arr blocks =>
      let acc := extractBlocks blocks
      let text := joinParts acc.1
      let reasoning := joinParts acc.2.1
      (text, if reasoning.data.isEmpty then none else some reasoning, acc.2.2)
  | .null => ("", none, [])
  | v => (joinParts [stringify v], none, [])

/-- The `harbor` metrics record (external pydantic model, modelled as a
permissive record per the design document's data model). -/
structure Metrics where
  prompt_tokens : Option Int
  completion_tokens : Option Int
  cached_tokens : Option Int
  cost_usd : Option JVal
  extra : Option (List (String × JVal))

/-- `usage.get(k, 0)` followed by use as an integer: a missing key gives the
default, a stored number (or bool, an int in Python) its value; any other
stored value (incl. `null`) makes the arithmetic/validation fail. -/
def getIntD (kvs : List (String × JVal)) (k : String) (d : Int) : Except Unit Int :=
  match List.lookup k kvs with
  | none => .ok d
  | some (.num n) => .ok n
  | some (.bool b) => .ok (if b then 1 else 0)
  | some _ => .error ()

/-- `usage.get("output_tokens", 0)` stored into the optional
`completion_tokens` field: a stored `null` is Python `None` and is stored
as an absent value. -/
def getIntOpt (kvs : List (String × JVal)) (k : String) : Except Unit (Option Int) :=
  match List.lookup k kvs with
  | none => .ok (some 0)
  | some (.num n) => .ok (some n)
  | some (.bool b) => .ok (some (if b then 1 else 0))
  | some .null => .ok none
  | some _ => .error ()

/-- `ForgeAgent._build_metrics` (lines 304-333).  The all-`None` test of the
source (lines 319-325) is kept verbatim; it can never fire because
`prompt_tokens` and `cached_tokens` are built from `.get(..., 0)` defaults. -/
def build_metrics (usage : JVal) : Except Unit (Option Metrics) :=
  match usage with
  | .obj kvs =>
      match getIntD kvs "cache_read_input_tokens" 0 with
      | .error e => .error e
      | .ok cached =>
        match getIntD kvs "input_tokens" 0 with
        | .error e => .error e
        | .ok inputT =>
          match getIntOpt kvs "output_tokens" with
          | .error e => .error e
          | .ok completion =>
            let prompt : Option Int := some (inputT + cached)
            let cachedO : Option Int := some cached
            let extra := kvs.filter
              (fun p => p.1 != "input_tokens" && p.1 != "output_tokens")
            if prompt.isNone && completion.isNone && cachedO.isNone &&
                extra.isEmpty then
              .ok none
            else
              .ok (some { prompt_tokens := prompt, completion_tokens := completion,
                          cached_tokens := cachedO, cost_usd := none,
                          extra := if extra.isEmpty then none else some extra })
  | _ => .ok none

structure ToolCall where
  tool_call_id : JVal
  function_name : JVal
  arguments : JVal

structure ObservationResult where
  source_call_id : JVal
  content : Option String
  subagent_trajectory_ref : Option JVal

structure Observation where
  results : List ObservationResult

/-- The ATIF step record (external `harbor` model, permissive). -/
structure Step where
  step_id : Nat
  timestamp : JVal
  source : String
  message : String
  tool_calls : Option (List ToolCall) := none
  observation : Option Observation := none
  reasoning_content : Option String := none
  model_name : Option JVal := none
  metrics : Option Metrics := none
  extra : Option (List (String × JVal)) := none

structure FinalMetrics where
  total_prompt_tokens : Option Int
  total_completion_tokens : Option Int
  total_cached_tokens : Option Int
  total_cost_usd : JVal
  total_steps : Nat
  extra : Option (List (String × JVal))

structure AgentInfo where
  name : String
  version : String
  model_name : JVal
  extra : Option (List (String × JVal))

structure Trajectory where
  schema_version : String
  session_id : JVal
  agent : AgentInfo
  steps : List Step
  final_metrics : FinalMetrics

/-- A normalized Forge event: the dicts built by
`_convert_forge_conversation_to_trajectory` with `"kind"` equal to
`"message"` or `"tool_call"`.  The `"metadata"` key is never set by the
normalizer (always Python `None`) and is therefore not carried. -/
inductive NEvent where
  | message (timestamp : JVal) (role : JVal) (text : String)
      (reasoning : Option String) (metrics : Option Metrics)
      (extra : Option (List (String × JVal))) (model_name : JVal)
  | tool_call (timestamp : JVal) (call_id : JVal) (tool_name : JVal)
      (arguments : JVal) (raw_arguments : JVal) (reasoning : Option String)
      (status : JVal) (message : Option String)
      (extra : Option (List (String × JVal))) (metrics : Option Metrics)
      (model_name : JVal) (output : Option String)

def metricsOfEvent : NEvent → Option Metrics
  | .message _ _ _ _ m _ _ => m
  | .tool_call _ _ _ _ _ _ _ _ _ m _ _ => m

def outputOfEvent : NEvent → Option String
  | .message _ _ _ _ _ _ _ => none
  | .tool_call _ _ _ _ _ _ _ _ _ _ _ o => o

/-- `v is None` in Python (JSON null is the Python `None` object). -/
def jIsNull : JVal → Bool
  | .null => true
  | _ => false

/-- Truthiness of an optional string (Python: `None` and `""` are falsy). -/
def optStrTruthy : Option String → Bool
  | none => false
  | some s => !s.data.isEmpty

/-- `extra.setdefault(key, value)`: keep an existing binding, else append. -/
def setdefault (kvs : List (String × JVal)) (k : String) (v : JVal) :
    List (String × JVal) :=
  if (List.lookup k kvs).isSome then kvs else kvs ++ [(k, v)]

/-- Errors of `_convert_event_to_step`: `ValueError` is caught by the step
loop (the event is skipped); any other exception (modelled `typeError`)
propagates and aborts the conversion. -/
inductive StepErr where
  | valueError
  | typeError

/-- `ForgeAgent._convert_event_to_step` (lines 129-241).  Each conditional
field mutation of the source (`if cond: step.field = value`) is rendered as
a conditional field value (`field := if cond then value else default`); an
unset optional field is `none`, the pydantic default.  The
`"Unsupported event kind"` branch is unreachable: the normalizer only
builds `message` and `tool_call` events. -/
def convert_event_to_step (selfModel : JVal) (event : NEvent) (step_id : Nat) :
    Except StepErr Step :=
  match event with
  | .message timestamp role text reasoning metrics extra model_name =>
      let source := if isStrV role "assistant" then "agent"
        else if isStrV role "user" then "user" else "system"
      .ok { step_id := step_id, timestamp := timestamp, source := source,
            message := text, tool_calls := none, observation := none,
            -- lines 156-162: reasoning/model attribution only on agent steps
            reasoning_content :=
              if source = "agent" && optStrTruthy reasoning then reasoning
              else none,
            model_name :=
              if source = "agent" then
                if truthy model_name then some model_name
                else if truthy selfModel then some selfModel else none
              else none,
            -- line 164: `if metrics:` — a Metrics object is always truthy,
            -- so the field is set exactly when the event carries metrics
            metrics := metrics,
            -- line 166: `if extra:` — an empty dict is falsy
            extra := match extra with
              | some ex => if !ex.isEmpty then some ex else none
              | none => none }
  | .tool_call timestamp call_id tool_name arguments raw_arguments reasoning
      status message extra metrics model_name output =>
      if !truthy call_id || !truthy tool_name then .error .valueError
      else
        let argumentsOr := if truthy arguments then arguments else JVal.obj []
        let model_name2 := if truthy model_name then model_name else selfModel
        let obs : Option Observation :=
          -- lines 200-204: `if output is not None`
          if output.isSome then
            some { results := [{ source_call_id := call_id, content := output,
                                 subagent_trajectory_ref := none }] }
          else none
        -- lines 206-214: fold raw_arguments/status into extra (the
        -- `metadata` update value is always None and is skipped)
        let extra1 := extra.getD []
        let extra2 := if !jIsNull raw_arguments then
            setdefault extra1 "raw_arguments" raw_arguments else extra1
        let extra3 := if !jIsNull status then
            setdefault extra2 "status" status else extra2
        -- lines 216-219: synthesized summary; `" ".join` needs string parts
        let msgTextE : Except StepErr String :=
          if optStrTruthy message then .ok (message.getD "")
          else
            match tool_name, call_id with
            | .str tn, .str ci => .ok ("Executed " ++ tn ++ " " ++ ci)
            | _, _ => .error .typeError
        match msgTextE with
        | .error e => .error e
        | .ok msgText =>
            .ok { step_id := step_id, timestamp := timestamp,
                  source := "agent", message := msgText,
                  tool_calls := some [{ tool_call_id := call_id,
                                        function_name := tool_name,
                                        arguments := argumentsOr }],
                  observation := obs,
                  model_name :=
                    if truthy model_name2 then some model_name2 else none,
                  reasoning_content :=
                    if optStrTruthy reasoning then reasoning else none,
                  metrics := metrics,
                  extra := if !extra3.isEmpty then some extra3 else none }

/-- Mutable state of the normalizer walk: the emitted normalized events,
the insertion-ordered pending-call map, and the uuid counter. -/
structure WalkState where
  events : List NEvent
  pending : List (JVal × NEvent)
  ctr : Nat

/-- `pending_calls[call_id] = event`: a Python dict update keeps an existing
key's position and replaces its value, otherwise appends. -/
def pendInsert (p : List (JVal × NEvent)) (k : JVal) (v : NEvent) :
    List (JVal × NEvent) :=
  match p with
  | [] => [(k, v)]
  | (k', v') :: rest =>
      if keyEq k' k then (k', v) :: rest else (k', v') :: pendInsert rest k v

/-- `pending_calls.pop(call_id, None)`: the popped event (if any) and the
remaining map. -/
def pendPop (p : List (JVal × NEvent)) (k : JVal) :
    Option NEvent × List (JVal × NEvent) :=
  match p with
  | [] => (none, [])
  | (k', v) :: rest =>
      if keyEq k' k then (some v, rest)
      else
        let r := pendPop rest k
        (r.1, (k', v) :: r.2)

/-- The tool-use registration loop of the text-message branch
(lines 478-506): registers one pending `tool_call` event per extracted
`tool_use` block; only the first block can carry the message's metrics,
and only when no free-standing message event consumed them. -/
def registerBlocks (timestamp : JVal) (reasoning : Option String)
    (extra : List (String × JVal)) (model_name : JVal) :
    List (List (String × JVal)) → Nat → Option Metrics →
    List (JVal × NEvent) → Nat → Except Unit (List (JVal × NEvent) × Nat)
  | [], _, _, pending, ctr => .ok (pending, ctr)
  | b :: bs, idx, metrics, pending, ctr =>
      let cid0 := if truthy (getJ b "id") then getJ b "id"
        else getJ b "tool_call_id"
      let cidCtr := if truthy cid0 then (cid0, ctr)
        else (JVal.str ("call_u" ++ toString ctr), ctr + 1)
      match cidCtr.1 with
      | .arr _ => .error ()
      | .obj _ => .error ()
      | call_id =>
          let raw_arguments := if truthy (getJ b "input") then getJ b "input"
            else getJ b "arguments"
          let arguments := match raw_arguments with
            | .obj a => JVal.obj a
            | v => JVal.obj [("input", v)]
          let argumentsOr := if truthy arguments then arguments else JVal.obj []
          let tn := if truthy (getJ b "name") then getJ b "name" else JVal.str ""
          let ev := NEvent.tool_call timestamp call_id tn argumentsOr
            raw_arguments reasoning (getJ b "status") none
            (if extra.isEmpty then none else some extra)
            (if idx = 0 then metrics else none) model_name none
          let metrics1 := if idx = 0 && metrics.isSome then none else metrics
          registerBlocks timestamp reasoning extra model_name bs (idx + 1)
            metrics1 (pendInsert pending call_id ev) cidCtr.2

/-- The text-message branch of the normalizer walk (lines 445-506), applied
to the resolved `content_data` dict. -/
def textBranch (dm : JVal) (st : WalkState) (cd : List (String × JVal))
    (timestamp : JVal) : Except Unit WalkState :=
  let role := getJD cd "role" (JVal.str "user")
  let content := getJD cd "content" (JVal.str "")
  let ext := extractTRT content
  let text := ext.1
  let reasoning := ext.2.1
  let tool_blocks := ext.2.2
  let usage := getJ cd "usage"
  match (if truthy usage then build_metrics usage else .ok none) with
  | .error e => .error e
  | .ok metrics0 =>
      let modelV := getJ cd "model"
      let extra : List (String × JVal) :=
        if truthy modelV then [("model", modelV)] else []
      let model_name := if truthy modelV then modelV else dm
      let emitMsg := !text.data.isEmpty || optStrTruthy reasoning ||
        tool_blocks.isEmpty
      let events1 := if emitMsg then
          st.events ++ [NEvent.message timestamp role text
            (if isStrV role "assistant" then reasoning else none)
            metrics0 (if extra.isEmpty then none else some extra) model_name]
        else st.events
      let metrics1 := if emitMsg then none else metrics0
      match registerBlocks timestamp reasoning extra model_name tool_blocks 0
          metrics1 st.pending st.ctr with
      | .error e => .error e
      | .ok pc => .ok { events := events1, pending := pc.1, ctr := pc.2 }

/-- The item loop of the tool-result output formatting (lines 536-541):
dicts with `type == "text"` contribute their `content` value, plain
strings contribute themselves, everything else is skipped. -/
def collectParts : List JVal → List JVal
  | [] => []
  | v :: vs =>
      match v with
      | .obj vk =>
          if isStrV (getJ vk "type") "text" then
            getJD vk "content" (JVal.str "") :: collectParts vs
          else collectParts vs
      | .str s => JVal.str s :: collectParts vs
      | _ => collectParts vs

/-- `"\n".join(parts)` requires every part to be a string (TypeError
otherwise). -/
def allStrings : List JVal → Option (List String)
  | [] => some []
  | .str s :: vs => (allStrings vs).map (fun r => s :: r)
  | _ :: _ => none

/-- The output-formatting block of the tool-result branch (lines 532-546),
applied to a truthy `output` value. -/
def formatOutput (output : JVal) : Except Unit (Option String) :=
  match output with
  | .obj okvs =>
      let values := getJD okvs "values" (JVal.arr [])
      match pyIter values with
      | .error e => .error e
      | .ok vs =>
          let parts := collectParts vs
          if parts.isEmpty then .ok (some (jdump (JVal.obj okvs)))
          else
            match allStrings parts with
            | some strs => .ok (some (joinSep "\n" strs))
            | none => .error ()
  | .str s => .ok (some s)
  | v => .ok (some (stringify v))

/-- `call_info["output"] = output_text`. -/
def withOutput : NEvent → Option String → NEvent
  | .tool_call ts ci tn ar ra rs stt m ex mt mn _, o =>
      .tool_call ts ci tn ar ra rs stt m ex mt mn o
  | e, _ => e

/-- `call_info["timestamp"] = call_info.get("timestamp") or timestamp`. -/
def fixTimestamp : NEvent → JVal → NEvent
  | .tool_call ts ci tn ar ra rs stt m ex mt mn o, newTs =>
      .tool_call (if truthy ts then ts else newTs) ci tn ar ra rs stt m ex mt mn o
  | e, _ => e

/-- The tool-result branch of the normalizer walk (lines 509-550), applied
to the resolved `tool_data` dict: pop the matching pending call or
fabricate a minimal one, attach the formatted output, and emit the event. -/
def resultBranch (dm : JVal) (st : WalkState) (td : List (String × JVal))
    (timestamp : JVal) : Except Unit WalkState :=
  let call_id := if truthy (getJ td "tool_call_id") then getJ td "tool_call_id"
    else getJ td "id"
  let output := if truthy (getJ td "output") then getJ td "output"
    else getJ td "content"
  match (if truthy call_id then
           match call_id with
           | .arr _ => Except.error ()
           | .obj _ => Except.error ()
           | k => Except.ok (pendPop st.pending k)
         else Except.ok (none, st.pending)) with
  | .error e => .error e
  | .ok fp =>
      let fab := match fp.1 with
        | some ev => (ev, st.ctr)
        | none =>
            let cidCtr := if truthy call_id then (call_id, st.ctr)
              else (JVal.str ("call_u" ++ toString st.ctr), st.ctr + 1)
            (NEvent.tool_call timestamp cidCtr.1
              (if truthy (getJ td "name") then getJ td "name" else JVal.str "")
              (JVal.obj []) JVal.null none JVal.null none none none dm none,
             cidCtr.2)
      match (if truthy output then formatOutput output else Except.ok none) with
      | .error e => .error e
      | .ok output_text =>
          let ev2 := fixTimestamp (withOutput fab.1 output_text) timestamp
          .ok { events := st.events ++ [ev2], pending := fp.2, ctr := fab.2 }

/-- One iteration of the normalizer's message walk (lines 436-550):
shape-probe the raw message and dispatch to the text or tool-result
branch; non-dict entries are skipped. -/
def processMsg (dm : JVal) (st : WalkState) (msg : JVal) :
    Except Unit WalkState :=
  match msg with
  | .obj [] => .ok st
  | .obj ((k0, v0) :: restKvs) =>
      let kvs := (k0, v0) :: restKvs
      let tRaw := getJ kvs "type"
      let msg_type := if truthy tRaw then tRaw else JVal.str k0
      match (if truthy msg_type then
               match msg_type with
               | .arr _ => Except.error ()
               | .obj _ => Except.error ()
               | .str s => Except.ok ((List.lookup s kvs).getD (JVal.obj kvs))
               | _ => Except.ok (JVal.obj kvs)
             else Except.ok (JVal.obj kvs)) with
      | .error e => .error e
      | .ok msg_content =>
          let timestamp := getJ kvs "timestamp"
          if isStrV msg_type "text" || isObjWithKey msg_content "content" then
            textBranch dm st
              (match msg_content with | .obj ckvs => ckvs | _ => kvs) timestamp
          else if isStrV msg_type "tool" ||
              isObjWithKey msg_content "tool_call_id" then
            resultBranch dm st
              (match msg_content with | .obj ckvs => ckvs | _ => kvs) timestamp
          else .ok st
  | _ => .ok st

/-- The normalizer walk over the raw message list. -/
def walkMsgs (dm : JVal) : List JVal → WalkState → Except Unit WalkState
  | [], st => .ok st
  | m :: ms, st =>
      match processMsg dm st m with
      | .error e => .error e
      | .ok st' => walkMsgs dm ms st'

/-- The default-model scan (lines 426-431): the first raw message carrying
a non-empty string `model` field, else the externally supplied default. -/
def scanDefaultModel (selfModel : JVal) : List JVal → JVal
  | [] => selfModel
  | m :: ms =>
      match m with
      | .obj kvs =>
          match getJ kvs "model" with
          | .str s => if !s.data.isEmpty then JVal.str s
              else scanDefaultModel selfModel ms
          | _ => scanDefaultModel selfModel ms
      | _ => scanDefaultModel selfModel ms

/-- The step-building loop (lines 556-567): `enumerate(events, start=1)`
supplies the step identifier, an event whose conversion raises ValueError
is skipped (the identifier is not reused), and an agent step without a
model name receives the run default. -/
def buildStepsGo (selfModel dm : JVal) : List NEvent → Nat →
    Except Unit (List Step)
  | [], _ => .ok []
  | e :: es, idx =>
      match convert_event_to_step selfModel e idx with
      | .error .valueError => buildStepsGo selfModel dm es (idx + 1)
      | .error .typeError => .error ()
      | .ok s =>
          let s1 := if s.source = "agent" && s.model_name.isNone && truthy dm
            then { s with model_name := some dm } else s
          match buildStepsGo selfModel dm es (idx + 1) with
          | .error e2 => .error e2
          | .ok rest => .ok (s1 :: rest)

def buildSteps (selfModel dm : JVal) (events : List NEvent) :
    Except Unit (List Step) :=
  buildStepsGo selfModel dm events 1

/-- One aggregated token total (lines 574-592): the sum over the steps
whose metrics report the field, `none` when no step reports it. -/
def aggField (get : Metrics → Option Int) (steps : List Step) : Option Int :=
  let values := steps.filterMap (fun s => s.metrics.bind get)
  if values.isEmpty then none else some values.sum

/-- The run-cost extraction (lines 594-600): requires a truthy top-level
`metrics` value and a truthy `accumulated_usage` dict; a truthy non-dict
`accumulated_usage` raises AttributeError. -/
def totalCostOf (d : List (String × JVal)) : Except Unit JVal :=
  let conv_metrics := getJD d "metrics" (JVal.obj [])
  if truthy conv_metrics then
    let au := getJ d "accumulated_usage"
    if truthy au then
      match au with
      | .obj akvs => .ok (getJ akvs "cost")
      | _ => .error ()
    else .ok JVal.null
  else .ok JVal.null

/-- `ForgeAgent._convert_forge_conversation_to_trajectory` (lines 408-624).
`selfModel` is the agent's `self.model_name`; `ctr` seeds the uuid model.
`.ok none` is the source's `return None`; `.error ()` models an uncaught
exception. -/
def convertForge (selfModel : JVal) (d : List (String × JVal)) (ctr : Nat) :
    Except Unit (Option Trajectory) :=
  let context := getJ d "context"
  if !truthy context then .ok none
  else
    match context with
    | .obj ctxKvs =>
        let messagesV := getJD ctxKvs "messages" (JVal.arr [])
        if !truthy messagesV then .ok none
        else
          let session_id := getJD d "id" (JVal.str ("uuid_" ++ toString ctr))
          match pyIter messagesV with
          | .error e => .error e
          | .ok msgs =>
              let dm := scanDefaultModel selfModel msgs
              match walkMsgs dm msgs { events := [], pending := [], ctr := ctr + 1 } with
              | .error e => .error e
              | .ok st =>
                  let events := st.events ++ st.pending.map (fun p => p.2)
                  match buildSteps selfModel dm events with
                  | .error e => .error e
                  | .ok steps =>
                      if steps.isEmpty then .ok none
                      else
                        match totalCostOf d with
                        | .error e => .error e
                        | .ok total_cost =>
                            .ok (some {
                              schema_version := "ATIF-v1.2",
                              session_id := session_id,
                              agent := { name := "forge", version := "unknown",
                                         model_name := dm, extra := none },
                              steps := steps,
                              final_metrics := {
                                total_prompt_tokens :=
                                  aggField (fun m => m.prompt_tokens) steps,
                                total_completion_tokens :=
                                  aggField (fun m => m.completion_tokens) steps,
                                total_cached_tokens :=
                                  aggField (fun m => m.cached_tokens) steps,
                                total_cost_usd := total_cost,
                                total_steps := steps.length,
                                extra := none } })
    | _ => .error ()

def dummyTraj : Trajectory :=
  { schema_version := "", session_id := JVal.null,
    agent := { name := "", version := "", model_name := JVal.null, extra := none },
    steps := [],
    final_metrics := { total_prompt_tokens := none, total_completion_tokens := none,
                       total_cached_tokens := none, total_cost_usd := JVal.null,
                       total_steps := 0, extra := none } }

/-- The trajectory of a successful, non-empty conversion. -/
def trajResult (r : Except Unit (Option Trajectory)) : Option Trajectory :=
  match r with
  | .ok (some t) => some t
  | _ => none

def theTraj (r : Except Unit (Option Trajectory)) : Trajectory :=
  (trajResult r).getD dummyTraj

def stepIdsResult (r : Except Unit (Option Trajectory)) : Option (List Nat) :=
  (trajResult r).map (fun t => t.steps.map Step.step_id)

def totalStepsResult (r : Except Unit (Option Trajectory)) : Option Nat :=
  (trajResult r).map (fun t => t.final_metrics.total_steps)

def metricsFlagsResult (r : Except Unit (Option Trajectory)) : Option (List Bool) :=
  (trajResult r).map (fun t => t.steps.map (fun s => s.metrics.isSome))

def costResult (r : Except Unit (Option Trajectory)) : Option JVal :=
  (trajResult r).map (fun t => t.final_metrics.total_cost_usd)

/-- A raw record with an assistant message holding a single nameless
`tool_use` block (id `t1`), the matching tool result, then a user text
message: the nameless tool event is skipped at step building, leaving a
gap in the step identifiers. -/
def recC1 : List (String × JVal) :=
  [("context", JVal.obj [("messages", JVal.arr [
      JVal.obj [("type", JVal.str "text"), ("role", JVal.str "assistant"),
        ("content", JVal.arr [JVal.obj [("type", JVal.str "tool_use"),
          ("id", JVal.str "t1")]])],
      JVal.obj [("type", JVal.str "tool"), ("tool_call_id", JVal.str "t1"),
        ("output", JVal.str "x")],
      JVal.obj [("type", JVal.str "text"), ("role", JVal.str "user"),
        ("content", JVal.str "hi")]])])]

/-- A raw record whose only message is a tool result referencing an id with
no matching pending call and carrying no `name` field: the fabricated
event has an empty tool name. -/
def recC2 : List (String × JVal) :=
  [("context", JVal.obj [("messages", JVal.arr [
      JVal.obj [("type", JVal.str "tool"), ("tool_call_id", JVal.str "x"),
        ("output", JVal.str "hi")]])])]

/-- A raw record with one assistant message holding a text block and a
`tool_use` block plus a usage payload: the metrics end up on the message
step, not on the tool-call step. -/
def recC3 : List (String × JVal) :=
  [("context", JVal.obj [("messages", JVal.arr [
      JVal.obj [("type", JVal.str "text"), ("role", JVal.str "assistant"),
        ("content", JVal.arr [
          JVal.obj [("type", JVal.str "text"), ("text", JVal.str "hi")],
          JVal.obj [("type", JVal.str "tool_use"), ("id", JVal.str "t1"),
            ("name", JVal.str "read")]]),
        ("usage", JVal.obj [("input_tokens", JVal.num 1),
          ("output_tokens", JVal.num 2)])]])])]

/-- An all-zero metrics record: what `_build_metrics` returns for the empty
usage mapping. -/
def zeroMetrics : Metrics :=
  { prompt_tokens := some 0, completion_tokens := some 0,
    cached_tokens := some 0, cost_usd := none, extra := none }

/-- A raw record whose top-level `accumulated_usage` has a `cost` but which
has no top-level `metrics` key: the trajectory's total cost is absent. -/
def recC6 : List (String × JVal) :=
  [("context", JVal.obj [("messages", JVal.arr [
      JVal.obj [("type", JVal.str "text"), ("role", JVal.str "user"),
        ("content", JVal.str "q")]])]),
   ("accumulated_usage", JVal.obj [("cost", JVal.num 7)])]

/-- `recC6` with a truthy top-level `metrics` value: the cost is picked up. -/
def recC6m : List (String × JVal) :=
  [("context", JVal.obj [("messages", JVal.arr [
      JVal.obj [("type", JVal.str "text"), ("role", JVal.str "user"),
        ("content", JVal.str "q")]])]),
   ("metrics", JVal.obj [("latency", JVal.num 1)]),
   ("accumulated_usage", JVal.obj [("cost", JVal.num 7)])]

/-- A raw record with a single user message carrying a usage payload. -/
def recC7 : List (String × JVal) :=
  [("context", JVal.obj [("messages", JVal.arr [
      JVal.obj [("type", JVal.str "text"), ("role", JVal.str "user"),
        ("content", JVal.str "q"),
        ("usage", JVal.obj [("input_tokens", JVal.num 10),
          ("output_tokens", JVal.num 5),
          ("cache_read_input_tokens", JVal.num 3)])]])])]

/-- A raw record with one user message and no usage anywhere. -/
def recC10 : List (String × JVal) :=
  [("context", JVal.obj [("messages", JVal.arr [
      JVal.obj [("type", JVal.str "text"), ("role", JVal.str "user"),
        ("content", JVal.str "hello")]])])]

/-- The step identifiers the builder keeps, as positions: the 1-based index
(over all normalized events) of each event whose conversion succeeds. -/
def stepIdsSpec (selfModel : JVal) (events : List NEvent) : List Nat :=
  (List.enumFrom 1 events).filterMap (fun p =>
    match convert_event_to_step selfModel p.2 p.1 with
    | .ok _ => some p.1
    | .error _ => none)


/-- The claim-side formulation of an aggregated token total: absent unless
some retained step reports the field, else the sum over exactly the steps
that report it. -/
def sumReported (get : Metrics → Option Int) (steps : List Step) : Option Int :=
  if steps.all (fun s => (s.metrics.bind get).isNone) then none
  else some ((steps.filterMap (fun s => s.metrics.bind get)).sum)

/-- The amended cost rule: `accumulated_usage.cost` is used exactly when
both the top-level `metrics` value and `accumulated_usage` are truthy. -/
def totalCostSpecAmended (d : List (String × JVal)) : JVal :=
  if truthy (getJD d "metrics" (JVal.obj [])) &&
      truthy (getJ d "accumulated_usage") then
    match getJ d "accumulated_usage" with
    | .obj akvs => getJ akvs "cost"
    | _ => JVal.null
  else JVal.null

/-- `isinstance(msg, dict)`. -/
def isDict : JVal → Bool
  | .obj _ => true
  | _ => false

/-- Drop the non-dict entries of a `messages` array (other shapes are kept
unchanged). -/
def filterMsgsVal : JVal → JVal
  | .arr ms => .arr (ms.filter isDict)
  | v => v

def filterCtxMessages : JVal → JVal
  | .obj ctxKvs => .obj (ctxKvs.map (fun p =>
      if p.1 = "messages" then (p.1, filterMsgsVal p.2) else p))
  | v => v

/-- The raw conversation record with the non-dict entries of
`context.messages` removed. -/
def dropNonDictMessages (d : List (String × JVal)) : List (String × JVal) :=
  d.map (fun p => if p.1 = "context" then (p.1, filterCtxMessages p.2) else p)

def dummyStep : Step :=
  { step_id := 0, timestamp := JVal.null, source := "", message := "" }

/-- One normalized user-message event, used to instantiate the step-id
theorem at a concrete input. -/
def c1wEvents : List NEvent :=
  [NEvent.message JVal.null (JVal.str "user") "hi" none none none JVal.null]

def c1wSteps : List Step :=
  match buildSteps JVal.null JVal.null c1wEvents with
  | .ok s => s
  | .error _ => []

/-- A resolved `content_data` dict with non-empty text, one tool_use block
and a usage payload. -/
def c3wCd : List (String × JVal) :=
  [("role", JVal.str "assistant"),
   ("content", JVal.arr [
      JVal.obj [("type", JVal.str "text"), ("text", JVal.str "hi")],
      JVal.obj [("type", JVal.str "tool_use"), ("id", JVal.str "t9"),
        ("name", JVal.str "read")]]),
   ("usage", JVal.obj [("input_tokens", JVal.num 1)])]

def c3wSt0 : WalkState := { events := [], pending := [], ctr := 0 }

def c3wSt1 : WalkState :=
  match textBranch JVal.null c3wSt0 c3wCd JVal.null with
  | .ok s => s
  | .error _ => c3wSt0

def c3wM : Metrics :=
  { prompt_tokens := some 1, completion_tokens := some 0,
    cached_tokens := some 0, cost_usd := none, extra := none }

def c6wT : Trajectory := theTraj (convertForge JVal.null recC6m 0)

def c7wT : Trajectory := theTraj (convertForge JVal.null recC7 0)

/-- A resolved tool-result dict whose `output` and `content` are absent. -/
def c9wTd : List (String × JVal) :=
  [("type", JVal.str "tool"), ("tool_call_id", JVal.str "z")]

def c9wSt0 : WalkState := { events := [], pending := [], ctr := 0 }

def c9wSt1 : WalkState :=
  match resultBranch JVal.null c9wSt0 c9wTd JVal.null with
  | .ok s => s
  | .error _ => c9wSt0

def c10wT : Trajectory := theTraj (convertForge JVal.null recC10 0)

def c10wS : Step := c10wT.steps.getD 0 dummyStep

/-- The resolved call identifier of a tool-result dict (line 511). -/
def resultCallId (td : List (String × JVal)) : JVal :=
  if truthy (getJ td "tool_call_id") then getJ td "tool_call_id"
  else getJ td "id"

/-- The resolved output value of a tool-result dict (line 512). -/
def resultOutputVal (td : List (String × JVal)) : JVal :=
  if truthy (getJ td "output") then getJ td "output" else getJ td "content"

/-- The tool name a fabricated call record receives (line 520): the result
message's own name field, else the empty string. -/
def fabToolName (td : List (String × JVal)) : JVal :=
  if truthy (getJ td "name") then getJ td "name" else JVal.str ""

/-- The call identifier a fabricated call record receives (line 519): the
resolved identifier when truthy, else a freshly generated one. -/
def fabCallId (td : List (String × JVal)) (ctr : Nat) : JVal :=
  if truthy (resultCallId td) then resultCallId td
  else JVal.str ("call_u" ++ toString ctr)

/-- The formatted output attached to the emitted tool-result event
(lines 532-546); the error fallback is never reached when the branch
succeeds. -/
def fabOutput (td : List (String × JVal)) : Option String :=
  match (if truthy (resultOutputVal td) then formatOutput (resultOutputVal td)
         else Except.ok none) with
  | .ok o => o
  | .error _ => none

/-- The minimal fabricated tool_call event of lines 516-529 after the
output is attached: empty arguments, no raw arguments, reasoning, status,
message, extras or metrics, the run's default model. -/
def fabricatedEvent (ts cid tn dm : JVal) (out : Option String) : NEvent :=
  NEvent.tool_call ts cid tn (JVal.obj []) JVal.null none JVal.null none none
    none dm out

/-- A resolved tool-result dict referencing an unmatched id and carrying a
name and an output. -/
def c2wTd : List (String × JVal) :=
  [("type", JVal.str "tool"), ("tool_call_id", JVal.str "x"),
   ("name", JVal.str "grep"), ("output", JVal.str "hi")]

def c2wSt0 : WalkState := { events := [], pending := [], ctr := 0 }

def c2wSt1 : WalkState :=
  match resultBranch JVal.null c2wSt0 c2wTd JVal.null with
  | .ok s => s
  | .error _ => c2wSt0

theorem convert_step_id (selfModel : JVal) (e : NEvent) (idx : Nat) (s : Step)
    (h : convert_event_to_step selfModel e idx = .ok s) : s.step_id = idx := by
  cases e with
  | message ts role text reasoning metrics extra model_name =>
      unfold convert_event_to_step at h
      injection h with h2
      subst h2
      rfl
  | tool_call ts ci tn ar ra rs stt m ex mt mn o =>
      unfold convert_event_to_step at h
      dsimp only at h
      split at h
      · exact Except.noConfusion h
      · split at h
        · exact Except.noConfusion h
        · injection h with h2
          subst h2
          rfl

theorem convert_nonagent (selfModel : JVal) (e : NEvent) (idx : Nat) (s : Step)
    (h : convert_event_to_step selfModel e idx = .ok s)
    (hs : s.source ≠ "agent") :
    s.reasoning_content = none ∧ s.model_name = none := by
  cases e with
  | message ts role text reasoning metrics extra model_name =>
      unfold convert_event_to_step at h
      injection h with h2
      subst h2
      cases hA : isStrV role "assistant" with
      | true => simp [hA] at hs
      | false => cases hU : isStrV role "user" <;> simp [hA, hU]
  | tool_call ts ci tn ar ra rs stt m ex mt mn o =>
      unfold convert_event_to_step at h
      dsimp only at h
      split at h
      · exact Except.noConfusion h
      · split at h
        · exact Except.noConfusion h
        · injection h with h2
          subst h2
          exact absurd rfl hs

theorem convert_obs_none (selfModel : JVal) (e : NEvent) (idx : Nat) (s : Step)
    (h : convert_event_to_step selfModel e idx = .ok s)
    (ho : outputOfEvent e = none) : s.observation = none := by
  cases e with
  | message ts role text reasoning metrics extra model_name =>
      unfold convert_event_to_step at h
      injection h with h2
      subst h2
      rfl
  | tool_call ts ci tn ar ra rs stt m ex mt mn o =>
      unfold convert_event_to_step at h
      dsimp only at h
      split at h
      · exact Except.noConfusion h
      · split at h
        · exact Except.noConfusion h
        · injection h with h2
          subst h2
          simp only [outputOfEvent] at ho
          subst ho
          rfl

theorem buildStepsGo_ids (selfModel dm : JVal) :
    ∀ (events : List NEvent) (idx : Nat) (steps : List Step),
      buildStepsGo selfModel dm events idx = .ok steps →
      steps.map Step.step_id = (List.enumFrom idx events).filterMap (fun p =>
        match convert_event_to_step selfModel p.2 p.1 with
        | .ok _ => some p.1
        | .error _ => none)
  | [], idx, steps, h => by
      unfold buildStepsGo at h
      injection h with h2
      subst h2
      rfl
  | e :: es, idx, steps, h => by
      unfold buildStepsGo at h
      rcases hc : convert_event_to_step selfModel e idx with err | s0
      · rcases err with _ | _
        · rw [hc] at h
          have ih := buildStepsGo_ids selfModel dm es (idx + 1) steps h
          simp only [List.enumFrom, List.filterMap, hc, ih]
        · rw [hc] at h
          exact Except.noConfusion h
      · rw [hc] at h
        rcases hr : buildStepsGo selfModel dm es (idx + 1) with e2 | rest
        · rw [hr] at h
          exact Except.noConfusion h
        · rw [hr] at h
          injection h with h2
          subst h2
          have ih := buildStepsGo_ids selfModel dm es (idx + 1) rest hr
          have hid : s0.step_id = idx := convert_step_id selfModel e idx s0 hc
          simp only [List.map_cons, List.enumFrom, List.filterMap, hc, ih,
            apply_ite Step.step_id, hid, ite_self]

theorem stepIds_all_ok (selfModel : JVal) :
    ∀ (events : List NEvent) (idx : Nat),
      (∀ e ∈ events, ∀ i, ∃ s, convert_event_to_step selfModel e i = .ok s) →
      ((List.enumFrom idx events).filterMap (fun p =>
        match convert_event_to_step selfModel p.2 p.1 with
        | .ok _ => some p.1
        | .error _ => none)) = List.range' idx events.length
  | [], idx, _ => by rfl
  | e :: es, idx, hall => by
      obtain ⟨s, hs⟩ := hall e (List.mem_cons_self e es) idx
      have ih := stepIds_all_ok selfModel es (idx + 1)
        (fun e' he' => hall e' (List.mem_cons_of_mem e he'))
      simp only [List.enumFrom, List.filterMap, hs, List.length_cons,
        List.range', ih]

theorem buildStepsGo_nonagent (selfModel dm : JVal) :
    ∀ (events : List NEvent) (idx : Nat) (steps : List Step),
      buildStepsGo selfModel dm events idx = .ok steps →
      ∀ s ∈ steps, s.source ≠ "agent" →
        s.reasoning_content = none ∧ s.model_name = none
  | [], idx, steps, h => by
      unfold buildStepsGo at h
      injection h with h2
      subst h2
      intro s hs
      exact absurd hs (List.not_mem_nil s)
  | e :: es, idx, steps, h => by
      unfold buildStepsGo at h
      rcases hc : convert_event_to_step selfModel e idx with err | s0
      · rcases err with _ | _
        · rw [hc] at h
          exact buildStepsGo_nonagent selfModel dm es (idx + 1) steps h
        · rw [hc] at h
          exact Except.noConfusion h
      · rw [hc] at h
        rcases hr : buildStepsGo selfModel dm es (idx + 1) with e2 | rest
        · rw [hr] at h
          exact Except.noConfusion h
        · rw [hr] at h
          injection h with h2
          subst h2
          intro s hmem hsrc
          rcases List.mem_cons.mp hmem with rfl | hmem2
          · by_cases hcond :
                (decide (s0.source = "agent") && s0.model_name.isNone &&
                  truthy dm) = true
            · rw [if_pos hcond] at hsrc
              rw [Bool.and_eq_true, Bool.and_eq_true] at hcond
              exact absurd (of_decide_eq_true hcond.1.1) hsrc
            · rw [if_neg hcond] at hsrc ⊢
              exact convert_nonagent selfModel e idx s0 hc hsrc
          · exact buildStepsGo_nonagent selfModel dm es (idx + 1) rest hr
              s hmem2 hsrc

set_option maxHeartbeats 1000000 in
theorem convertForge_shape (sm : JVal) (d : List (String × JVal)) (ctr : Nat)
    (t : Trajectory) (h : convertForge sm d ctr = .ok (some t)) :
    t.final_metrics.total_prompt_tokens
        = aggField (fun m => m.prompt_tokens) t.steps ∧
    t.final_metrics.total_completion_tokens
        = aggField (fun m => m.completion_tokens) t.steps ∧
    t.final_metrics.total_cached_tokens
        = aggField (fun m => m.cached_tokens) t.steps ∧
    totalCostOf d = .ok t.final_metrics.total_cost_usd ∧
    ∃ dm events, buildSteps sm dm events = .ok t.steps := by
  unfold convertForge at h
  dsimp only at h
  repeat' split at h
  all_goals try exact Except.noConfusion h
  all_goals try exact Option.noConfusion (Except.ok.inj h)
  all_goals injection h with h2
  all_goals injection h2 with h3
  all_goals subst h3
  all_goals refine ⟨rfl, rfl, rfl, ?_, ?_⟩
  all_goals try assumption
  all_goals exact ⟨_, _, by assumption⟩

theorem aggField_eq_sumReported (get : Metrics → Option Int)
    (steps : List Step) : aggField get steps = sumReported get steps := by
  unfold aggField sumReported
  by_cases hx : ∀ s ∈ steps, s.metrics.bind get = none
  · rw [if_pos, if_pos]
    · exact List.all_eq_true.mpr (fun s hs => by rw [hx s hs]; rfl)
    · rw [List.isEmpty_iff, List.filterMap_eq_nil_iff]
      exact hx
  · rw [if_neg, if_neg]
    · intro hc
      rw [List.all_eq_true] at hc
      exact hx (fun s hs => Option.isNone_iff_eq_none.mp (hc s hs))
    · intro hc
      rw [List.isEmpty_iff, List.filterMap_eq_nil_iff] at hc
      exact hx hc

theorem totalCostOf_ok (d : List (String × JVal)) (v : JVal)
    (h : totalCostOf d = .ok v) : v = totalCostSpecAmended d := by
  unfold totalCostOf at h
  unfold totalCostSpecAmended
  by_cases h1 : truthy (getJD d "metrics" (JVal.obj [])) = true
  · rw [if_pos h1] at h
    by_cases h2 : truthy (getJ d "accumulated_usage") = true
    · rw [if_pos h2] at h
      rw [if_pos (by rw [h1, h2]; rfl)]
      rcases hau : getJ d "accumulated_usage" with _ | b | n | s | xs | akvs <;>
        rw [hau] at h
      all_goals try exact Except.noConfusion h
      injection h with h3
      rw [← h3]
    · rw [if_neg h2] at h
      rw [if_neg (by rw [Bool.and_eq_true]; intro hc; exact h2 hc.2)]
      injection h with h3
      rw [← h3]
  · rw [if_neg h1] at h
    rw [if_neg (by rw [Bool.and_eq_true]; intro hc; exact h1 hc.1)]
    injection h with h3
    rw [← h3]

theorem pendInsert_mem (k : JVal) (v : NEvent) :
    ∀ (p : List (JVal × NEvent)), ∀ q ∈ pendInsert p k v, q ∈ p ∨ q.2 = v
  | [], q, hq => by
      unfold pendInsert at hq
      rcases List.mem_singleton.mp hq with rfl
      exact Or.inr rfl
  | (k', v') :: tl, q, hq => by
      unfold pendInsert at hq
      split at hq
      · rcases List.mem_cons.mp hq with rfl | htl
        · exact Or.inr rfl
        · exact Or.inl (List.mem_cons_of_mem _ htl)
      · rcases List.mem_cons.mp hq with rfl | htl
        · exact Or.inl (List.mem_cons_self _ _)
        · rcases pendInsert_mem k v tl q htl with h1 | h2
          · exact Or.inl (List.mem_cons_of_mem _ h1)
          · exact Or.inr h2

theorem registerBlocks_none (ts : JVal) (rsn : Option String)
    (ex : List (String × JVal)) (mn : JVal) :
    ∀ (bs : List (List (String × JVal))) (idx : Nat)
      (pending : List (JVal × NEvent)) (ctr : Nat)
      (out : List (JVal × NEvent) × Nat),
      registerBlocks ts rsn ex mn bs idx none pending ctr = .ok out →
      ∀ q ∈ out.1, q ∈ pending ∨ metricsOfEvent q.2 = none
  | [], idx, pending, ctr, out, h => by
      unfold registerBlocks at h
      injection h with h2
      subst h2
      exact fun q hq => Or.inl hq
  | b :: bs, idx, pending, ctr, out, h => by
      unfold registerBlocks at h
      dsimp only at h
      split at h
      · exact Except.noConfusion h
      · exact Except.noConfusion h
      · intro q hq
        have hrec := registerBlocks_none ts rsn ex mn bs (idx + 1) _ _ out
          (by rw [← h]; congr 1; split <;> rfl) q hq
        rcases hrec with hmem | hnone
        · rcases pendInsert_mem _ _ _ q hmem with h1 | h2
          · exact Or.inl h1
          · refine Or.inr ?_
            rw [h2]
            show (if idx = 0 then none else none) = none
            exact ite_self none
        · exact Or.inr hnone

theorem outputAfterNone (e : NEvent) (ts : JVal) :
    outputOfEvent (fixTimestamp (withOutput e none) ts) = none := by
  cases e <;> rfl

/-- Claim C3 (amended): when a raw text-bearing message has non-empty text
and a usage payload yielding metrics, the emitted free-standing message
event carries those metrics, and every pending tool-call event created or
replaced during the walk of that message carries no metrics; so the metrics
are attributed to exactly one event of that message. -/
theorem forge_c3_metrics_attachment (dm : JVal) (st : WalkState)
    (cd : List (String × JVal)) (ts : JVal) (st' : WalkState) (m : Metrics)
    (h : textBranch dm st cd ts = .ok st')
    (htext : (extractTRT (getJD cd "content" (JVal.str ""))).1.data.isEmpty = false)
    (husage : truthy (getJ cd "usage") = true)
    (hbm : build_metrics (getJ cd "usage") = .ok (some m)) :
    st'.events.map metricsOfEvent = st.events.map metricsOfEvent ++ [some m] ∧
    (∀ q ∈ st'.pending, q ∈ st.pending ∨ metricsOfEvent q.2 = none) := by
  unfold textBranch at h
  dsimp only at h
  simp only [husage, hbm, htext, if_true, Bool.not_false, Bool.true_or] at h
  split at h
  · exact Except.noConfusion h
  · next pc hreg =>
      injection h with h2
      subst h2
      constructor
      · simp [metricsOfEvent]
      · intro q hq
        exact registerBlocks_none ts _ _ _ _ 0 st.pending st.ctr pc hreg q hq

theorem resultBranchNoOutput (dm : JVal) (st : WalkState)
    (td : List (String × JVal)) (ts : JVal) (st' : WalkState)
    (h : resultBranch dm st td ts = .ok st')
    (h1 : truthy (getJ td "output") = false)
    (h2 : truthy (getJ td "content") = false) :
    st'.events.map outputOfEvent = st.events.map outputOfEvent ++ [none] := by
  unfold resultBranch at h
  dsimp only at h
  simp only [h1, h2, Bool.false_eq_true, if_false] at h
  split at h
  · exact Except.noConfusion h
  · injection h with h3
    subst h3
    dsimp only
    rw [List.map_append]
    congr 1
    rw [List.map_singleton, outputAfterNone]

theorem lookup_cons (k a : String) (x : JVal) (l : List (String × JVal)) :
    List.lookup k ((a, x) :: l) = if k = a then some x else List.lookup k l := by
  by_cases h : k = a
  · simp [List.lookup, h]
  · have hb : (k == a) = false := by
      rw [beq_eq_false_iff_ne]
      exact h
    simp [List.lookup, hb, h]

theorem lookup_map_upd (g : JVal → JVal) (k' : String) :
    ∀ (d : List (String × JVal)) (k : String),
      List.lookup k (d.map (fun p => if p.1 = k' then (p.1, g p.2) else p)) =
      if k = k' then (List.lookup k d).map g else List.lookup k d
  | [], k => by
      simp only [List.map_nil, List.lookup_nil]
      split <;> rfl
  | (a, b) :: tl, k => by
      have ih := lookup_map_upd g k' tl k
      simp only [List.map_cons]
      by_cases hak : a = k'
      · rw [if_pos hak, lookup_cons, lookup_cons]
        by_cases hka : k = a
        · rw [if_pos hka, if_pos hka, if_pos (hka.trans hak)]
          rfl
        · have hkk : ¬k = k' := fun hc => hka (hc.trans hak.symm)
          rw [if_neg hka, if_neg hka, if_neg hkk, ih, if_neg hkk]
      · rw [if_neg hak, lookup_cons, lookup_cons]
        by_cases hka : k = a
        · have hkk : ¬k = k' := fun hc => hak (hka.symm.trans hc)
          rw [if_pos hka, if_pos hka, if_neg hkk]
        · rw [if_neg hka, if_neg hka, ih]

theorem processMsg_nondict (dm : JVal) (st : WalkState) (m : JVal)
    (hm : isDict m = false) : processMsg dm st m = .ok st := by
  cases m <;> first | rfl | exact absurd hm (by simp [isDict])

theorem walk_filter (dm : JVal) :
    ∀ (ms : List JVal) (st : WalkState),
      walkMsgs dm (ms.filter isDict) st = walkMsgs dm ms st
  | [], st => rfl
  | m :: ms, st => by
      by_cases hm : isDict m = true
      · rw [List.filter_cons_of_pos hm]
        unfold walkMsgs
        cases hp : processMsg dm st m
        · rfl
        · exact walk_filter dm ms _
      · rw [List.filter_cons_of_neg hm]
        conv_rhs => rw [walkMsgs]
        rw [processMsg_nondict dm st m (by revert hm; cases m <;> simp [isDict])]
        exact walk_filter dm ms st

theorem scan_filter (sm : JVal) :
    ∀ ms : List JVal,
      scanDefaultModel sm (ms.filter isDict) = scanDefaultModel sm ms
  | [] => rfl
  | m :: ms => by
      by_cases hm : isDict m = true
      · rw [List.filter_cons_of_pos hm]
        cases m with
        | obj kvs =>
            unfold scanDefaultModel
            rw [scan_filter sm ms]
        | null => exact absurd hm (by simp [isDict])
        | bool b => exact absurd hm (by simp [isDict])
        | num n => exact absurd hm (by simp [isDict])
        | str s => exact absurd hm (by simp [isDict])
        | arr xs => exact absurd hm (by simp [isDict])
      · rw [List.filter_cons_of_neg hm]
        cases m with
        | obj kvs => exact absurd (rfl : isDict (JVal.obj kvs) = true) hm
        | null => exact scan_filter sm ms
        | bool b => exact scan_filter sm ms
        | num n => exact scan_filter sm ms
        | str s => exact scan_filter sm ms
        | arr xs => exact scan_filter sm ms

theorem walk_allnondict (dm : JVal) :
    ∀ (ms : List JVal) (st : WalkState), (∀ x ∈ ms, isDict x = false) →
      walkMsgs dm ms st = .ok st
  | [], _, _ => rfl
  | m :: ms, st, hall => by
      unfold walkMsgs
      rw [processMsg_nondict dm st m (hall m (List.mem_cons_self m ms))]
      exact walk_allnondict dm ms st
        (fun x hx => hall x (List.mem_cons_of_mem m hx))

theorem isEmpty_map_pair (f : String × JVal → String × JVal)
    (l : List (String × JVal)) : (l.map f).isEmpty = l.isEmpty := by
  cases l <;> rfl

/-- Claim C8: entries of `context.messages` that are not dicts are skipped
entirely: deleting them from the raw record leaves the produced trajectory
(steps, aggregated metrics, everything) unchanged. -/
theorem forge_c8_nondict_skipped (sm : JVal) (d : List (String × JVal))
    (ctr : Nat) :
    convertForge sm (dropNonDictMessages d) ctr = convertForge sm d ctr := by
  have hid : List.lookup "id" (dropNonDictMessages d) = List.lookup "id" d := by
    unfold dropNonDictMessages
    rw [lookup_map_upd]
    exact if_neg (by decide)
  have hmet : List.lookup "metrics" (dropNonDictMessages d)
      = List.lookup "metrics" d := by
    unfold dropNonDictMessages
    rw [lookup_map_upd]
    exact if_neg (by decide)
  have hacc : List.lookup "accumulated_usage" (dropNonDictMessages d)
      = List.lookup "accumulated_usage" d := by
    unfold dropNonDictMessages
    rw [lookup_map_upd]
    exact if_neg (by decide)
  have hcost : totalCostOf (dropNonDictMessages d) = totalCostOf d := by
    unfold totalCostOf getJ getJD
    rw [hmet, hacc]
  have hctx : List.lookup "context" (dropNonDictMessages d) =
      (List.lookup "context" d).map filterCtxMessages := by
    unfold dropNonDictMessages
    rw [lookup_map_upd]
    exact if_pos rfl
  unfold convertForge
  simp only [getJ, getJD, hctx, hid, hcost]
  rcases hc : List.lookup "context" d with _ | ctxv
  · rfl
  · simp only [Option.map_some', Option.getD_some]
    cases ctxv with
    | null => rfl
    | bool b => cases b <;> rfl
    | num n => rfl
    | str s => rfl
    | arr xs => rfl
    | obj ctxKvs =>
        simp only [filterCtxMessages]
        simp only [truthy, isEmpty_map_pair]
        rw [lookup_map_upd]
        rw [if_pos rfl]
        rcases hm : List.lookup "messages" ctxKvs with _ | mv
        · rfl
        · simp only [Option.map_some', Option.getD_some]
          cases mv with
          | null => rfl
          | bool b => cases b <;> rfl
          | num n => rfl
          | str s => rfl
          | obj kvs2 => rfl
          | arr ms =>
              cases ms with
              | nil => rfl
              | cons m rest =>
                  simp only [filterMsgsVal]
                  by_cases hfe : List.filter isDict (m :: rest) = []
                  · rw [hfe]
                    have hall : ∀ x ∈ m :: rest, isDict x = false := by
                      intro x hx
                      have := List.filter_eq_nil_iff.mp hfe x hx
                      revert this
                      cases isDict x <;> simp
                    dsimp only [pyIter]
                    conv_rhs =>
                      rw [walk_allnondict (scanDefaultModel sm (m :: rest))
                        (m :: rest) _ hall]
                    rfl
                  · have hcond : ¬((!!(List.filter isDict
                        (m :: rest)).isEmpty) = true) := by
                      rw [Bool.not_not]
                      cases hfl : List.filter isDict (m :: rest) with
                      | nil => exact absurd hfl hfe
                      | cons a l => simp
                    have hcond2 : ¬((!!(m :: rest).isEmpty) = true) := by simp
                    dsimp only [pyIter]
                    rw [if_neg hcond, if_neg hcond2]
                    rw [scan_filter, walk_filter]


/-- Claim C1 counterexample: on `recC1` the nameless tool-call event is
skipped at step building and the surviving step keeps identifier 2 while
`total_steps` is 1, so the retained identifiers are not 1..total_steps. -/
theorem forge_c1_counterexample :
    stepIdsResult (convertForge JVal.null recC1 0) = some [2] ∧
    totalStepsResult (convertForge JVal.null recC1 0) = some 1 ∧
    ([2] : List Nat) ≠ [1] :=
  ⟨rfl, rfl, by decide⟩

/-- Claim C1 (amended): step identifiers are the 1-based positions of the
kept events within the whole normalized event list (so a skipped event
leaves a gap); they are contiguous 1..n exactly in runs where every
normalized event converts successfully. -/
theorem forge_c1_step_ids (selfModel dm : JVal) (events : List NEvent)
    (steps : List Step) (h : buildSteps selfModel dm events = .ok steps) :
    steps.map Step.step_id = stepIdsSpec selfModel events ∧
    ((∀ e ∈ events, ∀ i, ∃ s, convert_event_to_step selfModel e i = .ok s) →
      steps.map Step.step_id = List.range' 1 events.length) := by
  refine ⟨buildStepsGo_ids selfModel dm events 1 steps h, fun hall => ?_⟩
  rw [buildStepsGo_ids selfModel dm events 1 steps h]
  exact stepIds_all_ok selfModel events 1 hall

/-- Witness for C1 at a one-event list. -/
theorem forge_c1_step_ids_witness :
    c1wSteps.map Step.step_id = stepIdsSpec JVal.null c1wEvents ∧
    c1wSteps.map Step.step_id = List.range' 1 c1wEvents.length :=
  ⟨(forge_c1_step_ids JVal.null JVal.null c1wEvents c1wSteps rfl).1,
   (forge_c1_step_ids JVal.null JVal.null c1wEvents c1wSteps rfl).2
     (by
       intro e he i
       simp only [c1wEvents, List.mem_singleton] at he
       subst he
       exact ⟨_, rfl⟩)⟩

/-- Claim C2 counterexample: a tool result referencing an unknown id and
carrying no `name` field yields a fabricated event with an empty tool name;
step conversion rejects it, no step survives, and the conversion returns
no trajectory at all instead of a step for the result. -/
theorem forge_c2_counterexample :
    convertForge JVal.null recC2 0 = .ok none ∧
    stepIdsResult (convertForge JVal.null recC2 0) = none :=
  ⟨rfl, rfl⟩

/-- Claim C3 counterexample: on `recC3` (assistant message with one text
block, one tool_use block and a usage payload) the metrics land on the
message step and the tool-call step has none, the opposite of the claimed
attachment to the first tool-use block. -/
theorem forge_c3_counterexample :
    metricsFlagsResult (convertForge JVal.null recC3 0) = some [true, false] ∧
    (some [true, false] : Option (List Bool)) ≠ some [false, true] :=
  ⟨rfl, by decide⟩

/-- Witness for C3 at a concrete resolved message. -/
theorem forge_c3_metrics_attachment_witness :
    c3wSt1.events.map metricsOfEvent
      = c3wSt0.events.map metricsOfEvent ++ [some c3wM] :=
  (forge_c3_metrics_attachment JVal.null c3wSt0 c3wCd JVal.null c3wSt1 c3wM
    rfl rfl rfl rfl).1

/-- Claim C4 counterexample: on the empty usage mapping `_build_metrics`
returns an all-zero metrics record, not the claimed absent metrics — the
all-null test of the source cannot fire because the token fields default
to 0. -/
theorem forge_c4_counterexample :
    build_metrics (JVal.obj []) = .ok (some zeroMetrics) ∧
    (some zeroMetrics : Option Metrics) ≠ none :=
  ⟨rfl, fun h => Option.noConfusion h⟩

/-- Claim C4 (amended): the empty usage mapping yields the all-zero metrics
record (prompt=0, completion=0, cached=0, no extras), and the usage
`input_tokens 10 / output_tokens 5 / cache_read_input_tokens 3` yields
prompt=13, completion=5, cached=3 with the cache field kept in extras. -/
theorem forge_c4_metrics_values :
    build_metrics (JVal.obj []) = .ok (some zeroMetrics) ∧
    build_metrics (JVal.obj [("input_tokens", JVal.num 10),
        ("output_tokens", JVal.num 5),
        ("cache_read_input_tokens", JVal.num 3)]) =
      .ok (some { prompt_tokens := some 13, completion_tokens := some 5,
                  cached_tokens := some 3, cost_usd := none,
                  extra := some [("cache_read_input_tokens", JVal.num 3)] }) :=
  ⟨rfl, rfl⟩

/-- Claim C5 counterexample: an empty reasoning accumulator yields an
absent reasoning value, not the marker string "no reasoning". -/
theorem forge_c5_counterexample :
    (extractTRT (JVal.arr [])).2.1 = none ∧
    (none : Option String) ≠ some "no reasoning" :=
  ⟨rfl, fun h => Option.noConfusion h⟩

/-- Claim C5 (amended): when the content extractor accumulates no non-empty
reasoning fragment it returns an absent reasoning value (`reasoning or
None` in the source), and whenever it does return a reasoning string that
string is non-empty — absence is encoded as absence, never as the empty
string or a marker string. -/
theorem forge_c5_reasoning_absent (content : JVal) :
    (extractTRT content).2.1 = none ∨
    ∃ s, (extractTRT content).2.1 = some s ∧ s ≠ "" := by
  cases content with
  | arr blocks =>
      unfold extractTRT
      dsimp only
      by_cases hr : (joinParts (extractBlocks blocks).2.1).data.isEmpty = true
      · rw [if_pos hr]
        exact Or.inl rfl
      · rw [if_neg hr]
        refine Or.inr ⟨_, rfl, fun hs => hr ?_⟩
        rw [hs]
        rfl
  | str s => exact Or.inl rfl
  | null => exact Or.inl rfl
  | bool b => exact Or.inl rfl
  | num n => exact Or.inl rfl
  | obj kvs => exact Or.inl rfl

/-- Claim C6 counterexample: `recC6` has `accumulated_usage.cost = 7` but
no top-level `metrics` key, and its trajectory's total cost is absent —
the presence of the cost alone does not determine the total. -/
theorem forge_c6_counterexample :
    costResult (convertForge JVal.null recC6 0) = some JVal.null ∧
    JVal.null ≠ JVal.num 7 :=
  ⟨rfl, fun h => JVal.noConfusion h⟩

/-- Claim C6 (amended): the trajectory's total cost equals
`accumulated_usage.cost` exactly when both the top-level `metrics` value
and `accumulated_usage` are truthy, and is absent otherwise. -/
theorem forge_c6_total_cost (sm : JVal) (d : List (String × JVal)) (ctr : Nat)
    (t : Trajectory) (h : convertForge sm d ctr = .ok (some t)) :
    t.final_metrics.total_cost_usd = totalCostSpecAmended d := by
  obtain ⟨-, -, -, hcost, -⟩ := convertForge_shape sm d ctr t h
  exact totalCostOf_ok d _ hcost

/-- Witness for C6 at a record with truthy `metrics`. -/
theorem forge_c6_total_cost_witness :
    c6wT.final_metrics.total_cost_usd = totalCostSpecAmended recC6m :=
  forge_c6_total_cost JVal.null recC6m 0 c6wT rfl

/-- Claim C7: every aggregate token total of a produced trajectory is the
sum of that field over exactly the retained steps whose metrics report it;
a field reported by no step gives an absent total, not zero. -/
theorem forge_c7_totals (sm : JVal) (d : List (String × JVal)) (ctr : Nat)
    (t : Trajectory) (h : convertForge sm d ctr = .ok (some t)) :
    t.final_metrics.total_prompt_tokens
        = sumReported (fun m => m.prompt_tokens) t.steps ∧
    t.final_metrics.total_completion_tokens
        = sumReported (fun m => m.completion_tokens) t.steps ∧
    t.final_metrics.total_cached_tokens
        = sumReported (fun m => m.cached_tokens) t.steps := by
  obtain ⟨h1, h2, h3, -, -⟩ := convertForge_shape sm d ctr t h
  exact ⟨h1.trans (aggField_eq_sumReported _ _),
         h2.trans (aggField_eq_sumReported _ _),
         h3.trans (aggField_eq_sumReported _ _)⟩

/-- Witness for C7 at a one-step record with usage 10/5/3. -/
theorem forge_c7_totals_witness :
    c7wT.final_metrics.total_prompt_tokens
        = sumReported (fun m => m.prompt_tokens) c7wT.steps ∧
    c7wT.final_metrics.total_completion_tokens
        = sumReported (fun m => m.completion_tokens) c7wT.steps ∧
    c7wT.final_metrics.total_cached_tokens
        = sumReported (fun m => m.cached_tokens) c7wT.steps :=
  forge_c7_totals JVal.null recC7 0 c7wT rfl

/-- Claim C9: a tool-result message whose `output` and `content` are both
absent or falsy yields a normalized event with no output at all, and any
event without output converts to a step with no observation — exactly like
a call that never received a result. -/
theorem forge_c9_empty_output (dm : JVal) (st : WalkState)
    (td : List (String × JVal)) (ts : JVal) (st' : WalkState)
    (h : resultBranch dm st td ts = .ok st')
    (h1 : truthy (getJ td "output") = false)
    (h2 : truthy (getJ td "content") = false) :
    st'.events.map outputOfEvent = st.events.map outputOfEvent ++ [none] ∧
    (∀ (sm : JVal) (e : NEvent) (i : Nat) (s : Step),
      outputOfEvent e = none → convert_event_to_step sm e i = .ok s →
      s.observation = none) :=
  ⟨resultBranchNoOutput dm st td ts st' h h1 h2,
   fun sm e i s ho hc => convert_obs_none sm e i s hc ho⟩

/-- Witness for C9 at a result dict with both fields absent. -/
theorem forge_c9_empty_output_witness :
    c9wSt1.events.map outputOfEvent
      = c9wSt0.events.map outputOfEvent ++ [none] :=
  (forge_c9_empty_output JVal.null c9wSt0 c9wTd JVal.null c9wSt1
    rfl rfl rfl).1

/-- Claim C10: every step of a produced trajectory whose source is not
`agent` (i.e. user- or system-sourced message steps) carries neither
reasoning content nor a model name. -/
theorem forge_c10_nonagent_attribution (sm : JVal) (d : List (String × JVal))
    (ctr : Nat) (t : Trajectory) (h : convertForge sm d ctr = .ok (some t)) :
    ∀ s ∈ t.steps, s.source ≠ "agent" →
      s.reasoning_content = none ∧ s.model_name = none := by
  obtain ⟨-, -, -, -, dm, events, hb⟩ := convertForge_shape sm d ctr t h
  exact buildStepsGo_nonagent sm dm events 1 t.steps hb

/-- Witness for C10 at a record with a single user message. -/
theorem forge_c10_nonagent_attribution_witness :
    c10wS.reasoning_content = none ∧ c10wS.model_name = none :=
  forge_c10_nonagent_attribution JVal.null recC10 0 c10wT rfl c10wS
    (show c10wS ∈ c10wT.steps from List.mem_singleton.mpr rfl)
    (by decide)

theorem fabricated_falsy_name (sm ts cid tn dm : JVal) (out : Option String)
    (i : Nat) (htn : truthy tn = false) :
    convert_event_to_step sm (fabricatedEvent ts cid tn dm out) i
      = .error .valueError := by
  simp [convert_event_to_step, fabricatedEvent, htn]

theorem fabricated_str_name (sm ts : JVal) (tns cids : String) (dm : JVal)
    (out : Option String) (i : Nat)
    (htn : truthy (JVal.str tns) = true)
    (hcid : truthy (JVal.str cids) = true) :
    ∃ s, convert_event_to_step sm
        (fabricatedEvent ts (JVal.str cids) (JVal.str tns) dm out) i = .ok s ∧
      s.tool_calls = some [{ tool_call_id := JVal.str cids,
                             function_name := JVal.str tns,
                             arguments := JVal.obj [] }] ∧
      s.observation = (if out.isSome then
        some { results := [{ source_call_id := JVal.str cids, content := out,
                             subagent_trajectory_ref := none }] }
        else none) := by
  unfold fabricatedEvent
  simp only [convert_event_to_step]
  rw [htn, hcid]
  rw [if_neg (by simp)]
  exact ⟨_, rfl, rfl, rfl⟩

theorem resultBranch_fabricates (dm : JVal) (st : WalkState)
    (td : List (String × JVal)) (ts : JVal) (st' : WalkState)
    (h : resultBranch dm st td ts = .ok st')
    (hmiss : (pendPop st.pending (resultCallId td)).1 = none) :
    st'.events = st.events ++
      [fabricatedEvent ts (fabCallId td st.ctr) (fabToolName td) dm
        (fabOutput td)] ∧
    truthy (fabCallId td st.ctr) = true := by
  unfold resultCallId at hmiss
  have hfresh : truthy (JVal.str ("call_u" ++ toString st.ctr)) = true := rfl
  unfold resultBranch at h
  dsimp only at h
  by_cases hct : truthy (if truthy (getJ td "tool_call_id")
      then getJ td "tool_call_id" else getJ td "id") = true
  · rw [if_pos hct] at h
    rcases hcid : (if truthy (getJ td "tool_call_id")
        then getJ td "tool_call_id" else getJ td "id")
      with _ | b | n | s2 | xs | kvs <;>
      rw [hcid] at h hmiss hct <;> dsimp only at h
    all_goals try exact Except.noConfusion h
    all_goals (
      rw [hmiss] at h
      dsimp only at h
      rw [if_pos hct] at h
      split at h
      · exact Except.noConfusion h
      · rename_i out hout
        injection h with h2
        subst h2
        constructor
        · dsimp only [withOutput, fixTimestamp]
          rw [ite_self]
          unfold fabricatedEvent fabCallId resultCallId fabToolName
          rw [hcid, if_pos hct]
          have hfo : fabOutput td = out := by
            unfold fabOutput resultOutputVal
            rw [hout]
          rw [hfo]
        · unfold fabCallId resultCallId
          rw [hcid, if_pos hct]
          exact hct)
  · rw [if_neg hct] at h
    dsimp only at h
    rw [if_neg hct] at h
    split at h
    · exact Except.noConfusion h
    · rename_i out hout
      injection h with h2
      subst h2
      constructor
      · dsimp only [withOutput, fixTimestamp]
        rw [ite_self]
        unfold fabricatedEvent fabCallId resultCallId fabToolName
        rw [if_neg hct]
        have hfo : fabOutput td = out := by
          unfold fabOutput resultOutputVal
          rw [hout]
        rw [hfo]
      · unfold fabCallId resultCallId
        rw [if_neg hct]
        exact hfresh

/-- Claim C2 (amended): for every tool-result dict processed by the
normalizer whose resolved call identifier pops no pending call, the
normalizer appends exactly one fabricated minimal tool_call event (truthy
call identifier, tool name from the result's own name field or empty,
empty arguments, no reasoning/status/metrics, the run's default model)
carrying only the formatted output — the result is never dropped at
normalization; at step building, any fabricated event with a falsy tool
name is rejected with the event-shape error (and so yields no step), while
one whose tool name and call identifier are truthy strings yields a step
holding exactly that tool invocation, with an observation exactly when an
output is present. -/
theorem forge_c2_fabricated_result (dm : JVal) (st : WalkState)
    (td : List (String × JVal)) (ts : JVal) (st' : WalkState)
    (h : resultBranch dm st td ts = .ok st')
    (hmiss : (pendPop st.pending (resultCallId td)).1 = none) :
    st'.events = st.events ++
      [fabricatedEvent ts (fabCallId td st.ctr) (fabToolName td) dm
        (fabOutput td)] ∧
    truthy (fabCallId td st.ctr) = true ∧
    (∀ (sm ts2 cid2 tn2 dm2 : JVal) (out2 : Option String) (i : Nat),
      (truthy tn2 = false →
        convert_event_to_step sm (fabricatedEvent ts2 cid2 tn2 dm2 out2) i
          = .error .valueError) ∧
      (∀ tns cids, tn2 = JVal.str tns → cid2 = JVal.str cids →
        truthy tn2 = true → truthy cid2 = true →
        ∃ s, convert_event_to_step sm (fabricatedEvent ts2 cid2 tn2 dm2 out2) i
            = .ok s ∧
          s.tool_calls = some [{ tool_call_id := cid2, function_name := tn2,
                                 arguments := JVal.obj [] }] ∧
          s.observation = (if out2.isSome then
            some { results := [{ source_call_id := cid2, content := out2,
                                 subagent_trajectory_ref := none }] }
            else none))) := by
  refine ⟨(resultBranch_fabricates dm st td ts st' h hmiss).1,
          (resultBranch_fabricates dm st td ts st' h hmiss).2,
          fun sm ts2 cid2 tn2 dm2 out2 i => ⟨?_, ?_⟩⟩
  · exact fabricated_falsy_name sm ts2 cid2 tn2 dm2 out2 i
  · intro tns cids htn hcid htnt hcidt
    subst htn
    subst hcid
    exact fabricated_str_name sm ts2 tns cids dm2 out2 i htnt hcidt

/-- Witness for C2 at an orphan tool result carrying a name and output. -/
theorem forge_c2_fabricated_result_witness :
    c2wSt1.events = c2wSt0.events ++
      [fabricatedEvent JVal.null (fabCallId c2wTd c2wSt0.ctr)
        (fabToolName c2wTd) JVal.null (fabOutput c2wTd)] ∧
    truthy (fabCallId c2wTd c2wSt0.ctr) = true :=
  ⟨(forge_c2_fabricated_result JVal.null c2wSt0 c2wTd JVal.null c2wSt1
      rfl rfl).1,
   (forge_c2_fabricated_result JVal.null c2wSt0 c2wTd JVal.null c2wSt1
      rfl rfl).2.1⟩
